import Mathlib

/-!
Verification of the hierarchical-matrix-to-cube-grid resolver of the PowerBI
dataCube custom visual (src/CustomVisuals/dataCube/src/visual.ts, `parseMatrix`
and its helpers).  The TypeScript data-shaping pipeline is shallowly embedded:

* a Power BI matrix node (`DataViewMatrixNode`) becomes `MNode`: an optional
  member value (JS `null`/`undefined` modelled by `Option`), an optional value
  group (an ordered list of measure fields, mirroring `Object.keys` order), and
  a child list;
* the recursive `traverse` closure becomes `traverseNode`/`traverseKids`;
* the depth-resolution block (visual.ts lines 481-513, which textually repeats
  the block at lines 443-478 and overwrites its result with the same
  computation, so one copy decides the outcome) becomes `resolveDepths`;
* `buildCellsAtDepths` and the two fallbacks at lines 544-557 become
  `buildCellsAtDepths` and `fallbackCells`;
* the Top-N reduction (`pickTop`, `naturalSort`), member indexing, min/max and
  totals accumulation become `pickTop`, `naturalSortKeys`, `reindex`,
  `minMaxOf`, `accumSums`, assembled by `parseMatrix`.

Numbers are modelled by `Int` (measure values) and `Nat` (depths, indices);
JS `Map` iteration order is modelled by insertion-ordered association lists;
`localeCompare` is modelled by code-point order on strings (for the concrete
keys appearing in the claims the two orders agree).
-/

/-- One measure field of a matrix node's value group; `value` is `none` when
the JS value is `null`/`undefined` (`measure.value != null` fails). -/
structure MeasureField where
  value : Option Int
deriving DecidableEq, Repr

/-- A matrix tree node: optional member value (`none` models JS `null`),
optional value group (ordered measure fields), children. -/
inductive MNode : Type where
  | mk : Option String → Option (List MeasureField) → List MNode → MNode

/-- One discovered data point: per-axis member-key paths and the measure
value (visual.ts `raw` entries; node references are host-selection plumbing
and carry no data, so they are not modelled). -/
structure PathTuple where
  p0 : List String
  p1 : List String
  p2 : List String
  v : Int
deriving DecidableEq, Repr

/-- A materialized cell: grid coordinates, value, composed keys. -/
structure Cell where
  i0 : Nat
  i1 : Nat
  i2 : Nat
  v : Int
  key0 : String
  key1 : String
  key2 : String
deriving DecidableEq, Repr

/-- The persisted per-axis depth state (`_lastDepths`). -/
@[ext] structure DepthState where
  d0 : Nat
  d1 : Nat
  d2 : Nat
deriving DecidableEq, Repr

/-- Sort mode of the Top-N reduction (settings.ts `sortMode`, default
`totals`). -/
inductive SortMode where
  | totals
  | keyAsc
deriving DecidableEq, Repr

/-- The resolver's output (`parseMatrix` result object; the debug fields and
host-selection references are omitted). -/
structure CubeDataset where
  cells : List Cell
  size0 : Nat
  size1 : Nat
  size2 : Nat
  members0 : List String
  members1 : List String
  members2 : List String
  minV : Int
  maxV : Int
  depth0 : Nat
  depth1 : Nat
  depth2 : Nat
  sums0 : List (String × Int)
  sums1 : List (String × Int)
  sums2 : List (String × Int)
  grandTotal : Int
deriving DecidableEq, Repr

/-- JS `String(node.value)` for an optional member value: `String(null)` is
the literal string `"null"`. -/
def jsString : Option String → String
  | some s => s
  | none => "null"

/-- Measure extraction (visual.ts lines 374-377): take the first field of the
value group; a missing field or a `null` value yields `0`. -/
def extractVal : List MeasureField → Int
  | [] => 0
  | f :: _ => f.value.getD 0

/-- Axis of a level: `axisOfLevel[levelIdx] ?? -1` (levels are mapped to
axis 0/1/2 by role, `-1` when unassigned). -/
def axisAt (axisOf : List Int) (levelIdx : Nat) : Int :=
  axisOf.getD levelIdx (-1)

/-- The axis of the level a node at `depth` sits on (visual.ts lines 349-351):
the root (depth 0) is on no level, deeper nodes on level `depth - 1`. -/
def axCur (axisOf : List Int) (depth : Nat) : Int :=
  if depth = 0 then -1 else axisAt axisOf (depth - 1)

/-- Extend axis `i`'s path with the node's stringified member value when the
node's level belongs to axis `i` (visual.ts lines 363-368). -/
def extendPath (axisOf : List Int) (depth : Nat) (i : Int) (p : List String)
    (value : Option String) : List String :=
  if axCur axisOf depth = i then p ++ [jsString value] else p

mutual

/-- The recursive `traverse` closure (visual.ts lines 345-406): at depth > 0
push the stringified member value onto the path of the level's axis
(copy-on-write is implicit in the functional embedding), record a data point
whenever the node carries a value group, then recurse into all children. -/
def traverseNode (axisOf : List Int) (node : MNode) (depth : Nat)
    (p0 p1 p2 : List String) : List PathTuple :=
  match node with
  | .mk value values children =>
    let q0 := extendPath axisOf depth 0 p0 value
    let q1 := extendPath axisOf depth 1 p1 value
    let q2 := extendPath axisOf depth 2 p2 value
    let here : List PathTuple :=
      match values with
      | some vg => [⟨q0, q1, q2, extractVal vg⟩]
      | none => []
    here ++ traverseKids axisOf children (depth + 1) q0 q1 q2

/-- Traversal of a child list (the `for (const child of node.children)`
loop). -/
def traverseKids (axisOf : List Int) (ns : List MNode) (depth : Nat)
    (p0 p1 p2 : List String) : List PathTuple :=
  match ns with
  | [] => []
  | n :: rest =>
    traverseNode axisOf n depth p0 p1 p2 ++ traverseKids axisOf rest depth p0 p1 p2

end





/-- The whole traversal: `traverse(root, 0, [[],[],[]], [[],[],[]])`. -/
def traverseTree (axisOf : List Int) (root : MNode) : List PathTuple :=
  traverseNode axisOf root 0 [] [] []

/-- Number of occurrences of depth `k` in the observed depth list (the
`depthCount` maps, visual.ts lines 414-418). -/
def countDepth (ds : List Nat) (k : Nat) : Nat :=
  (ds.filter (fun x => x = k)).length

/-- The `mode` helper (visual.ts lines 419-421): the observed depth with the
highest count, ties broken toward the larger depth, `0` when no depth was
observed.  The JS fold runs over `Map` keys in insertion order with
`bestC = -1`; folding over first-occurrence-ordered distinct depths starting
from `best = 0` computes the same (count, depth)-lexicographic argmax. -/
def modalDepth (ds : List Nat) : Nat :=
  ds.eraseDups.foldl
    (fun best k =>
      if countDepth ds best < countDepth ds k ∨
          (countDepth ds k = countDepth ds best ∧ best < k) then k else best)
    0

/-- Maximum observed depth (`Array.from(depthCount.keys()).reduce(Math.max, 0)`,
visual.ts lines 423-425; the maximum over distinct observed depths equals the
maximum over all observed depths). -/
def maxDepth (ds : List Nat) : Nat :=
  ds.foldl max 0

/-- The `grow`/`dec` positive-entry counter (`grow.filter(g=>g>0).length`). -/
def growCount3 (g0 g1 g2 : Int) : Nat :=
  (if 0 < g0 then 1 else 0) + (if 0 < g1 then 1 else 0) + (if 0 < g2 then 1 else 0)

/-- The depth-resolution state machine (visual.ts lines 481-513; the
identical block at lines 443-478 is overwritten by this one).  With a prior
state: a unique maximal positive growth `max[i] - prev[i]` drills that axis to
its max and keeps the others; with no growth, exactly one positive decrease
`prev[i] - cand[i]` snaps all axes to the modal depths; otherwise the previous
depths are kept.  Without a prior state: the axis with the largest positive
`max[i] - cand[i]` lift goes to its max, the others to their modal depth. -/
def resolveDepths (prev : Option DepthState) (c0 c1 c2 m0 m1 m2 : Nat) : DepthState :=
  match prev with
  | some p =>
    if 0 < max ((m0 : Int) - p.d0) (max ((m1 : Int) - p.d1) ((m2 : Int) - p.d2)) ∧
        growCount3 ((m0 : Int) - p.d0) ((m1 : Int) - p.d1) ((m2 : Int) - p.d2) = 1 then
      if (m0 : Int) - p.d0 =
          max ((m0 : Int) - p.d0) (max ((m1 : Int) - p.d1) ((m2 : Int) - p.d2)) then
        ⟨m0, p.d1, p.d2⟩
      else if (m1 : Int) - p.d1 =
          max ((m0 : Int) - p.d0) (max ((m1 : Int) - p.d1) ((m2 : Int) - p.d2)) then
        ⟨p.d0, m1, p.d2⟩
      else ⟨p.d0, p.d1, m2⟩
    else if growCount3 ((m0 : Int) - p.d0) ((m1 : Int) - p.d1) ((m2 : Int) - p.d2) = 0 then
      if growCount3 ((p.d0 : Int) - c0) ((p.d1 : Int) - c1) ((p.d2 : Int) - c2) = 1 then
        ⟨c0, c1, c2⟩
      else ⟨p.d0, p.d1, p.d2⟩
    else ⟨p.d0, p.d1, p.d2⟩
  | none =>
    if 0 < max ((m0 : Int) - c0) (max ((m1 : Int) - c1) ((m2 : Int) - c2)) then
      if (m0 : Int) - c0 =
          max ((m0 : Int) - c0) (max ((m1 : Int) - c1) ((m2 : Int) - c2)) then
        ⟨m0, c1, c2⟩
      else if (m1 : Int) - c1 =
          max ((m0 : Int) - c0) (max ((m1 : Int) - c1) ((m2 : Int) - c2)) then
        ⟨c0, m1, c2⟩
      else ⟨c0, c1, m2⟩
    else ⟨c0, c1, c2⟩

/-- Key composition (visual.ts lines 524-526): join the path segments with
the separator, or the literal `"All"` for a zero-length path. -/
def composeKey (sep : String) (p : List String) : String :=
  if p = [] then "All" else String.intercalate sep p

/-- The default key separator (settings.ts `keySeparator` default and the
`' ▸ '` fallback at visual.ts line 519). -/
def defaultKeySeparator : String := " ▸ "

/-- The cell built from one retained tuple (visual.ts line 539; grid
coordinates start at 0 and are assigned later by `reindex`). -/
def mkCellOf (sep : String) (r : PathTuple) : Cell :=
  { i0 := 0, i1 := 0, i2 := 0, v := r.v,
    key0 := composeKey sep r.p0,
    key1 := composeKey sep r.p1,
    key2 := composeKey sep r.p2 }

/-- `buildCellsAtDepths` (visual.ts lines 520-542): keep exactly the tuples
whose per-axis path lengths equal the requested depths and compose their
keys. -/
def buildCellsAtDepths (sep : String) (raw : List PathTuple)
    (dd0 dd1 dd2 : Nat) : List Cell :=
  match raw with
  | [] => []
  | r :: rest =>
    if r.p0.length = dd0 ∧ r.p1.length = dd1 ∧ r.p2.length = dd2 then
      mkCellOf sep r :: buildCellsAtDepths sep rest dd0 dd1 dd2
    else buildCellsAtDepths sep rest dd0 dd1 dd2

/-- Materialization with fallbacks (visual.ts lines 544-557): cells at the
resolved depths; if empty, at the modal depths; if still empty, at the
per-axis maximum observed depths (recomputed by folding over `raw`).
Returns the depths finally used (persisted as `_lastDepths`) and the cells. -/
def fallbackCells (sep : String) (raw : List PathTuple)
    (resolved cand : DepthState) : DepthState × List Cell :=
  let cA := buildCellsAtDepths sep raw resolved.d0 resolved.d1 resolved.d2
  if cA.isEmpty then
    let cB := buildCellsAtDepths sep raw cand.d0 cand.d1 cand.d2
    if cB.isEmpty then
      let f0 := raw.foldl (fun a r => max a r.p0.length) 0
      let f1 := raw.foldl (fun a r => max a r.p1.length) 0
      let f2 := raw.foldl (fun a r => max a r.p2.length) 0
      (⟨f0, f1, f2⟩, buildCellsAtDepths sep raw f0 f1 f2)
    else (cand, cB)
  else (resolved, cA)

/-- Traversal, depth resolution and fallback materialization combined: the
stage of `parseMatrix` that fixes the active depths and the unfiltered cell
list. -/
def depthStage (sep : String) (axisOf : List Int) (root : MNode)
    (prev : Option DepthState) : DepthState × List Cell :=
  let raw := traverseTree axisOf root
  let c0 := modalDepth (raw.map (fun r => r.p0.length))
  let c1 := modalDepth (raw.map (fun r => r.p1.length))
  let c2 := modalDepth (raw.map (fun r => r.p2.length))
  let m0 := maxDepth (raw.map (fun r => r.p0.length))
  let m1 := maxDepth (raw.map (fun r => r.p1.length))
  let m2 := maxDepth (raw.map (fun r => r.p2.length))
  fallbackCells sep raw (resolveDepths prev c0 c1 c2 m0 m1 m2) ⟨c0, c1, c2⟩

/-- Insertion-ordered accumulation into an association list, modelling
`map.set(k, (map.get(k) || 0) + add)` on a JS `Map` (the `ensure` helper,
visual.ts lines 341-343). -/
def addTo (m : List (String × Int)) (k : String) (v : Int) : List (String × Int) :=
  match m with
  | [] => [(k, v)]
  | (k0, v0) :: rest => if k0 = k then (k0, v0 + v) :: rest else (k0, v0) :: addTo rest k v

/-- Per-member totals over the materialized cells (visual.ts lines 573-576). -/
def accumSums (cells : List Cell) (key : Cell → String) : List (String × Int) :=
  cells.foldl (fun m c => addTo m (key c) c.v) []

/-- Code-point lexicographic comparison of character lists, the model of JS
`localeCompare` returning a negative value. -/
def strLtB : List Char → List Char → Bool
  | [], [] => false
  | [], _ :: _ => true
  | _ :: _, [] => false
  | a :: as, b :: bs => if a < b then true else if b < a then false else strLtB as bs

/-- Key order used for tie-breaks: `a.localeCompare(b) <= 0` in the
code-point model. -/
def keyLe (a b : String) : Prop :=
  strLtB a.data b.data = true ∨ a = b

instance : DecidableRel keyLe := fun a b => by
  unfold keyLe; infer_instance

/-- The `pickTop` comparator (visual.ts line 568): totals descending, ties by
ascending key comparison. -/
def entryLe (a b : String × Int) : Prop :=
  b.2 < a.2 ∨ (a.2 = b.2 ∧ keyLe a.1 b.1)

instance : DecidableRel entryLe := fun a b => by
  unfold entryLe; infer_instance

/-- `pickTop` (visual.ts lines 566-570): sort entries by total descending with
ascending-key tie-break (JS `Array.sort` is a stable sort; insertion sort is
stable and the comparator is total and antisymmetric), take the first `n`
keys. -/
def pickTop (entries : List (String × Int)) (n : Nat) : List String :=
  ((List.insertionSort entryLe entries).take n).map Prod.fst

/-- The `naturalSort` comparator (visual.ts lines 578-584): keys that are
numeric literals compare numerically, the rest by string comparison (the
locale- and numeric-substring-aware `localeCompare` is modelled by code-point
order; no claim depends on the `keyAsc` ordering details). -/
def natKeyLe (a b : String) : Prop :=
  match a.toInt?, b.toInt? with
  | some x, some y => x ≤ y
  | _, _ => keyLe a b

instance : DecidableRel natKeyLe := fun a b => by
  unfold natKeyLe
  rcases a.toInt? with _ | x <;> rcases b.toInt? with _ | y <;> simp <;> infer_instance

/-- Natural ascending key sort used by the `keyAsc` sort mode. -/
def naturalSortKeys (l : List String) : List String :=
  List.insertionSort natKeyLe l

/-- Top-N clamping (visual.ts lines 560-563): `clamp(value ?? 10, 1, 50)`. -/
def clampTopN (t : Option Int) : Nat :=
  (max 1 (min 50 (t.getD 10))).toNat

/-- Filtering by the Top-N key sets and dense coordinate assignment
(visual.ts lines 596-616): drop cells whose composed key on any axis is
outside the selected member list, give survivors the index of their key in
that axis's ordered member list. -/
def reindex (cells : List Cell) (o0 o1 o2 : List String) : List Cell :=
  cells.filterMap fun c =>
    if c.key0 ∈ o0 ∧ c.key1 ∈ o1 ∧ c.key2 ∈ o2 then
      some { c with i0 := o0.indexOf c.key0, i1 := o1.indexOf c.key1, i2 := o2.indexOf c.key2 }
    else none

/-- Min/max of the filtered cell values (visual.ts lines 619-621): folds that
start from JS infinities; an empty list leaves them non-finite and the guard
replaces them by `(0, 1)`. -/
def minMaxOf (vs : List Int) : Int × Int :=
  match vs with
  | [] => (0, 1)
  | v :: rest => (rest.foldl min v, rest.foldl max v)

/-- `members.length || 1` (visual.ts lines 631-633). -/
def sizeOfMembers (members : List String) : Nat :=
  if members = [] then 1 else members.length

/-- The Top-N reduction, reindexing and statistics of `parseMatrix`
(visual.ts lines 559-650), applied to the materialized cells and the depths
finally used. -/
def postProcess (top0 top1 top2 : Option Int) (sortMode : SortMode)
    (cells : List Cell) (dFinal : DepthState) : CubeDataset :=
  let t0 := clampTopN top0
  let t1 := clampTopN top1
  let t2 := clampTopN top2
  let sums0 := accumSums cells (fun c => c.key0)
  let sums1 := accumSums cells (fun c => c.key1)
  let sums2 := accumSums cells (fun c => c.key2)
  let order0 := match sortMode with
    | .keyAsc => (naturalSortKeys (sums0.map Prod.fst)).take t0
    | .totals => pickTop sums0 t0
  let order1 := match sortMode with
    | .keyAsc => (naturalSortKeys (sums1.map Prod.fst)).take t1
    | .totals => pickTop sums1 t1
  let order2 := match sortMode with
    | .keyAsc => (naturalSortKeys (sums2.map Prod.fst)).take t2
    | .totals => pickTop sums2 t2
  let filtered := reindex cells order0 order1 order2
  let mm := minMaxOf (filtered.map (fun c => c.v))
  { cells := filtered,
    size0 := sizeOfMembers order0,
    size1 := sizeOfMembers order1,
    size2 := sizeOfMembers order2,
    members0 := order0,
    members1 := order1,
    members2 := order2,
    minV := mm.1,
    maxV := mm.2,
    depth0 := dFinal.d0,
    depth1 := dFinal.d1,
    depth2 := dFinal.d2,
    sums0 := sums0,
    sums1 := sums1,
    sums2 := sums2,
    grandTotal := filtered.foldl (fun a c => a + c.v) 0 }

/-- The whole data-shaping pipeline of `parseMatrix` (visual.ts lines
307-651): returns the `CubeDataset` and the persisted `_lastDepths` state. -/
def parseMatrix (sep : String) (top0 top1 top2 : Option Int) (sortMode : SortMode)
    (axisOf : List Int) (root : MNode) (prev : Option DepthState) :
    CubeDataset × DepthState :=
  let st := depthStage sep axisOf root prev
  (postProcess top0 top1 top2 sortMode st.2 st.1, st.1)

/-- Number of levels among the first `d` that belong to axis `i`. -/
def cntAx (axisOf : List Int) (i : Int) (d : Nat) : Nat :=
  ((List.range d).filter (fun l => axisAt axisOf l = i)).length

/-- Pointwise comparison of the per-axis path lengths of two tuples. -/
def domTuple (r s : PathTuple) : Prop :=
  r.p0.length ≤ s.p0.length ∧ r.p1.length ≤ s.p1.length ∧ r.p2.length ≤ s.p2.length

/-! Concrete input trees used by witnesses and counterexamples. -/

/-- A leaf node carrying a member key and a measure value. -/
def mLeaf (k : String) (v : Int) : MNode := .mk (some k) (some [⟨some v⟩]) []

/-- An inner node carrying a member key and no measure. -/
def mBranch (k : String) (cs : List MNode) : MNode := .mk (some k) none cs

/-- A root node (no member value, no measure). -/
def mRoot (cs : List MNode) : MNode := .mk none none cs

/-- Two axes, three data points (A/X = 7, A/X2 = 7, B/Y = 8): with Top-1 per
axis, axis 0 selects A (total 14) while axis 1 selects Y (total 8), and no
cell survives the combined filter. -/
def treeTopEmpty : MNode :=
  mRoot [mBranch "A" [mLeaf "X" 7, mLeaf "X2" 7], mBranch "B" [mLeaf "Y" 8]]

/-- Two axes, two data points (A/X = 10, B/Y = 20): with Top-2 on axis 0 and
Top-1 on axis 1, member A stays selected on axis 0 but its only cell is
dropped by axis 1's filter. -/
def treeGap : MNode := mRoot [mBranch "A" [mLeaf "X" 10], mBranch "B" [mLeaf "Y" 20]]

/-- Level 0 unassigned, level 1 on axis 0; data points at depth 1 (twice, path
length 0) and depth 2 (once, path length 1), so axis 0's modal depth is 0 and
its max observed depth is 1. -/
def treeOscillate : MNode :=
  mRoot [MNode.mk (some "u1") (some [⟨some 1⟩]) [mLeaf "w" 1],
    MNode.mk (some "u2") (some [⟨some 1⟩]) []]

/-- One level on axis 0, every data point at the same depth (modal depth =
max observed depth on all axes). -/
def treeRect : MNode := mRoot [mLeaf "A" 1, mLeaf "B" 2]

/-- A node with a `null` member value (where a string key is expected)
carrying a measure. -/
def nullValueTree : MNode := .mk none none [.mk none (some [⟨some 5⟩]) []]

/-! Case laws of the depth-resolution state machine. -/

/-- Unfolding equation of `traverseNode` on a constructor. -/
theorem traverseNode_mk (axisOf : List Int) (value : Option String)
    (values : Option (List MeasureField)) (children : List MNode) (depth : Nat)
    (p0 p1 p2 : List String) :
    traverseNode axisOf (.mk value values children) depth p0 p1 p2 =
      (match values with
        | some vg =>
          [⟨extendPath axisOf depth 0 p0 value, extendPath axisOf depth 1 p1 value,
            extendPath axisOf depth 2 p2 value, extractVal vg⟩]
        | none => []) ++
      traverseKids axisOf children (depth + 1) (extendPath axisOf depth 0 p0 value)
        (extendPath axisOf depth 1 p1 value) (extendPath axisOf depth 2 p2 value) := by
  rw [traverseNode.eq_def]

/-- Unfolding equation of `traverseKids` on `[]`. -/
theorem traverseKids_nil (axisOf : List Int) (depth : Nat) (p0 p1 p2 : List String) :
    traverseKids axisOf [] depth p0 p1 p2 = [] := by
  rw [traverseKids.eq_def]

/-- Unfolding equation of `traverseKids` on a cons. -/
theorem traverseKids_cons (axisOf : List Int) (n : MNode) (rest : List MNode)
    (depth : Nat) (p0 p1 p2 : List String) :
    traverseKids axisOf (n :: rest) depth p0 p1 p2 =
      traverseNode axisOf n depth p0 p1 p2 ++ traverseKids axisOf rest depth p0 p1 p2 := by
  rw [traverseKids.eq_def]

/-- Growth on axis 0 only: axis 0 drills to its max, the others keep their
previous depths. -/
theorem resolve_grow0 (p : DepthState) (c0 c1 c2 m0 m1 m2 : Nat)
    (h0 : p.d0 < m0) (h1 : m1 ≤ p.d1) (h2 : m2 ≤ p.d2) :
    resolveDepths (some p) c0 c1 c2 m0 m1 m2 = ⟨m0, p.d1, p.d2⟩ := by
  have hg0 : (0 : Int) < (m0 : Int) - p.d0 := by omega
  have hg1 : ¬ ((0 : Int) < (m1 : Int) - p.d1) := by omega
  have hg2 : ¬ ((0 : Int) < (m2 : Int) - p.d2) := by omega
  have hm : max ((m0 : Int) - p.d0) (max ((m1 : Int) - p.d1) ((m2 : Int) - p.d2)) =
      (m0 : Int) - p.d0 := by
    rw [max_eq_left]
    rcases max_cases ((m1 : Int) - p.d1) ((m2 : Int) - p.d2) with ⟨h, _⟩ | ⟨h, _⟩ <;> omega
  simp only [resolveDepths, growCount3, if_pos hg0, if_neg hg1, if_neg hg2, hm]
  simp [hg0]

/-- Growth on axis 1 only: axis 1 drills to its max, the others keep their
previous depths. -/
theorem resolve_grow1 (p : DepthState) (c0 c1 c2 m0 m1 m2 : Nat)
    (h0 : m0 ≤ p.d0) (h1 : p.d1 < m1) (h2 : m2 ≤ p.d2) :
    resolveDepths (some p) c0 c1 c2 m0 m1 m2 = ⟨p.d0, m1, p.d2⟩ := by
  have hg0 : ¬ ((0 : Int) < (m0 : Int) - p.d0) := by omega
  have hg1 : (0 : Int) < (m1 : Int) - p.d1 := by omega
  have hg2 : ¬ ((0 : Int) < (m2 : Int) - p.d2) := by omega
  have hm : max ((m0 : Int) - p.d0) (max ((m1 : Int) - p.d1) ((m2 : Int) - p.d2)) =
      (m1 : Int) - p.d1 := by
    rw [max_eq_left (by omega : (m2 : Int) - p.d2 ≤ (m1 : Int) - p.d1)]
    exact max_eq_right (by omega)
  have hne0 : ¬ ((m0 : Int) - p.d0 = (m1 : Int) - p.d1) := by omega
  simp only [resolveDepths, growCount3, if_pos hg1, if_neg hg0, if_neg hg2, hm]
  simp [hg1, hne0]

/-- Growth on axis 2 only: axis 2 drills to its max, the others keep their
previous depths. -/
theorem resolve_grow2 (p : DepthState) (c0 c1 c2 m0 m1 m2 : Nat)
    (h0 : m0 ≤ p.d0) (h1 : m1 ≤ p.d1) (h2 : p.d2 < m2) :
    resolveDepths (some p) c0 c1 c2 m0 m1 m2 = ⟨p.d0, p.d1, m2⟩ := by
  have hg0 : ¬ ((0 : Int) < (m0 : Int) - p.d0) := by omega
  have hg1 : ¬ ((0 : Int) < (m1 : Int) - p.d1) := by omega
  have hg2 : (0 : Int) < (m2 : Int) - p.d2 := by omega
  have hm : max ((m0 : Int) - p.d0) (max ((m1 : Int) - p.d1) ((m2 : Int) - p.d2)) =
      (m2 : Int) - p.d2 := by
    rw [max_eq_right (by omega : (m1 : Int) - p.d1 ≤ (m2 : Int) - p.d2)]
    exact max_eq_right (by omega)
  have hne0 : ¬ ((m0 : Int) - p.d0 = (m2 : Int) - p.d2) := by omega
  have hne1 : ¬ ((m1 : Int) - p.d1 = (m2 : Int) - p.d2) := by omega
  simp only [resolveDepths, growCount3, if_pos hg2, if_neg hg0, if_neg hg1, hm]
  simp [hg2, hne0, hne1]

/-- Simultaneous growth on two or more axes is ambiguous: all previous
depths are kept. -/
theorem resolve_keepMulti (p : DepthState) (c0 c1 c2 m0 m1 m2 : Nat)
    (h : (p.d0 < m0 ∧ p.d1 < m1) ∨ (p.d0 < m0 ∧ p.d2 < m2) ∨ (p.d1 < m1 ∧ p.d2 < m2)) :
    resolveDepths (some p) c0 c1 c2 m0 m1 m2 = ⟨p.d0, p.d1, p.d2⟩ := by
  have hcount : ¬ (growCount3 ((m0 : Int) - p.d0) ((m1 : Int) - p.d1) ((m2 : Int) - p.d2) = 1)
      ∧ ¬ (growCount3 ((m0 : Int) - p.d0) ((m1 : Int) - p.d1) ((m2 : Int) - p.d2) = 0) := by
    unfold growCount3
    rcases h with ⟨ha, hb⟩ | ⟨ha, hb⟩ | ⟨ha, hb⟩ <;>
      [(rw [if_pos (by omega : (0:Int) < (m0:Int) - p.d0),
            if_pos (by omega : (0:Int) < (m1:Int) - p.d1)]);
       (rw [if_pos (by omega : (0:Int) < (m0:Int) - p.d0),
            if_pos (by omega : (0:Int) < (m2:Int) - p.d2)]);
       (rw [if_pos (by omega : (0:Int) < (m1:Int) - p.d1),
            if_pos (by omega : (0:Int) < (m2:Int) - p.d2)])] <;>
      split <;> omega
  simp only [resolveDepths]
  rw [if_neg (fun hc => hcount.1 hc.2), if_neg hcount.2]

/-- No growth and exactly one modal decrease: all three axes snap to the
modal depths (roll-up detected). -/
theorem resolve_rollup (p : DepthState) (c0 c1 c2 m0 m1 m2 : Nat)
    (hg0 : m0 ≤ p.d0) (hg1 : m1 ≤ p.d1) (hg2 : m2 ≤ p.d2)
    (hdec : (c0 < p.d0 ∧ p.d1 ≤ c1 ∧ p.d2 ≤ c2) ∨
            (p.d0 ≤ c0 ∧ c1 < p.d1 ∧ p.d2 ≤ c2) ∨
            (p.d0 ≤ c0 ∧ p.d1 ≤ c1 ∧ c2 < p.d2)) :
    resolveDepths (some p) c0 c1 c2 m0 m1 m2 = ⟨c0, c1, c2⟩ := by
  have hz0 : ¬ ((0 : Int) < (m0 : Int) - p.d0) := by omega
  have hz1 : ¬ ((0 : Int) < (m1 : Int) - p.d1) := by omega
  have hz2 : ¬ ((0 : Int) < (m2 : Int) - p.d2) := by omega
  have hgc : growCount3 ((m0 : Int) - p.d0) ((m1 : Int) - p.d1) ((m2 : Int) - p.d2) = 0 := by
    unfold growCount3
    rw [if_neg hz0, if_neg hz1, if_neg hz2]
  have hdc : growCount3 ((p.d0 : Int) - c0) ((p.d1 : Int) - c1) ((p.d2 : Int) - c2) = 1 := by
    unfold growCount3
    rcases hdec with ⟨ha, hb, hc⟩ | ⟨ha, hb, hc⟩ | ⟨ha, hb, hc⟩
    · rw [if_pos (by omega : (0 : Int) < (p.d0 : Int) - c0),
        if_neg (by omega : ¬ ((0 : Int) < (p.d1 : Int) - c1)),
        if_neg (by omega : ¬ ((0 : Int) < (p.d2 : Int) - c2))]
    · rw [if_neg (by omega : ¬ ((0 : Int) < (p.d0 : Int) - c0)),
        if_pos (by omega : (0 : Int) < (p.d1 : Int) - c1),
        if_neg (by omega : ¬ ((0 : Int) < (p.d2 : Int) - c2))]
    · rw [if_neg (by omega : ¬ ((0 : Int) < (p.d0 : Int) - c0)),
        if_neg (by omega : ¬ ((0 : Int) < (p.d1 : Int) - c1)),
        if_pos (by omega : (0 : Int) < (p.d2 : Int) - c2)]
  have hnot1 : ¬ (0 < max ((m0 : Int) - p.d0) (max ((m1 : Int) - p.d1) ((m2 : Int) - p.d2)) ∧
      growCount3 ((m0 : Int) - p.d0) ((m1 : Int) - p.d1) ((m2 : Int) - p.d2) = 1) := by
    intro hcontra
    omega
  simp only [resolveDepths]
  rw [if_neg hnot1, if_pos hgc, if_pos hdc]

/-- No growth and no unique modal decrease: all previous depths are kept
(stability). -/
theorem resolve_keepNone (p : DepthState) (c0 c1 c2 m0 m1 m2 : Nat)
    (hg0 : m0 ≤ p.d0) (hg1 : m1 ≤ p.d1) (hg2 : m2 ≤ p.d2)
    (hdec : (p.d0 ≤ c0 ∧ p.d1 ≤ c1 ∧ p.d2 ≤ c2) ∨ (c0 < p.d0 ∧ c1 < p.d1) ∨
            (c0 < p.d0 ∧ c2 < p.d2) ∨ (c1 < p.d1 ∧ c2 < p.d2)) :
    resolveDepths (some p) c0 c1 c2 m0 m1 m2 = ⟨p.d0, p.d1, p.d2⟩ := by
  have hgc : growCount3 ((m0 : Int) - p.d0) ((m1 : Int) - p.d1) ((m2 : Int) - p.d2) = 0 := by
    unfold growCount3
    rw [if_neg (by omega : ¬ ((0 : Int) < (m0 : Int) - p.d0)),
      if_neg (by omega : ¬ ((0 : Int) < (m1 : Int) - p.d1)),
      if_neg (by omega : ¬ ((0 : Int) < (m2 : Int) - p.d2))]
  have hdc : ¬ (growCount3 ((p.d0 : Int) - c0) ((p.d1 : Int) - c1) ((p.d2 : Int) - c2) = 1) := by
    unfold growCount3
    rcases hdec with ⟨ha, hb, hc⟩ | ⟨ha, hb⟩ | ⟨ha, hb⟩ | ⟨ha, hb⟩
    · rw [if_neg (by omega : ¬ ((0 : Int) < (p.d0 : Int) - c0)),
        if_neg (by omega : ¬ ((0 : Int) < (p.d1 : Int) - c1)),
        if_neg (by omega : ¬ ((0 : Int) < (p.d2 : Int) - c2))]
      omega
    · rw [if_pos (by omega : (0 : Int) < (p.d0 : Int) - c0),
        if_pos (by omega : (0 : Int) < (p.d1 : Int) - c1)]
      split <;> omega
    · rw [if_pos (by omega : (0 : Int) < (p.d0 : Int) - c0),
        if_pos (by omega : (0 : Int) < (p.d2 : Int) - c2)]
      split <;> omega
    · rw [if_pos (by omega : (0 : Int) < (p.d1 : Int) - c1),
        if_pos (by omega : (0 : Int) < (p.d2 : Int) - c2)]
      split <;> omega
  have hnot1 : ¬ (0 < max ((m0 : Int) - p.d0) (max ((m1 : Int) - p.d1) ((m2 : Int) - p.d2)) ∧
      growCount3 ((m0 : Int) - p.d0) ((m1 : Int) - p.d1) ((m2 : Int) - p.d2) = 1) := by
    intro hcontra
    omega
  simp only [resolveDepths]
  rw [if_neg hnot1, if_pos hgc, if_neg hdc]

/-- Complete enumeration of the subsequent-resolution transition outcomes. -/
theorem resolve_cases (p : DepthState) (c0 c1 c2 m0 m1 m2 : Nat) :
    (p.d0 < m0 ∧ m1 ≤ p.d1 ∧ m2 ≤ p.d2 ∧
      resolveDepths (some p) c0 c1 c2 m0 m1 m2 = ⟨m0, p.d1, p.d2⟩) ∨
    (m0 ≤ p.d0 ∧ p.d1 < m1 ∧ m2 ≤ p.d2 ∧
      resolveDepths (some p) c0 c1 c2 m0 m1 m2 = ⟨p.d0, m1, p.d2⟩) ∨
    (m0 ≤ p.d0 ∧ m1 ≤ p.d1 ∧ p.d2 < m2 ∧
      resolveDepths (some p) c0 c1 c2 m0 m1 m2 = ⟨p.d0, p.d1, m2⟩) ∨
    (m0 ≤ p.d0 ∧ m1 ≤ p.d1 ∧ m2 ≤ p.d2 ∧
      (resolveDepths (some p) c0 c1 c2 m0 m1 m2 = ⟨c0, c1, c2⟩ ∨
       resolveDepths (some p) c0 c1 c2 m0 m1 m2 = ⟨p.d0, p.d1, p.d2⟩)) ∨
    (((p.d0 < m0 ∧ p.d1 < m1) ∨ (p.d0 < m0 ∧ p.d2 < m2) ∨ (p.d1 < m1 ∧ p.d2 < m2)) ∧
      resolveDepths (some p) c0 c1 c2 m0 m1 m2 = ⟨p.d0, p.d1, p.d2⟩) := by
  rcases lt_or_ge p.d0 m0 with h0 | h0 <;> rcases lt_or_ge p.d1 m1 with h1 | h1 <;>
    rcases lt_or_ge p.d2 m2 with h2 | h2
  · exact Or.inr (Or.inr (Or.inr (Or.inr ⟨Or.inl ⟨h0, h1⟩,
      resolve_keepMulti p c0 c1 c2 m0 m1 m2 (Or.inl ⟨h0, h1⟩)⟩)))
  · exact Or.inr (Or.inr (Or.inr (Or.inr ⟨Or.inl ⟨h0, h1⟩,
      resolve_keepMulti p c0 c1 c2 m0 m1 m2 (Or.inl ⟨h0, h1⟩)⟩)))
  · exact Or.inr (Or.inr (Or.inr (Or.inr ⟨Or.inr (Or.inl ⟨h0, h2⟩),
      resolve_keepMulti p c0 c1 c2 m0 m1 m2 (Or.inr (Or.inl ⟨h0, h2⟩))⟩)))
  · exact Or.inl ⟨h0, h1, h2, resolve_grow0 p c0 c1 c2 m0 m1 m2 h0 h1 h2⟩
  · exact Or.inr (Or.inr (Or.inr (Or.inr ⟨Or.inr (Or.inr ⟨h1, h2⟩),
      resolve_keepMulti p c0 c1 c2 m0 m1 m2 (Or.inr (Or.inr ⟨h1, h2⟩))⟩)))
  · exact Or.inr (Or.inl ⟨h0, h1, h2, resolve_grow1 p c0 c1 c2 m0 m1 m2 h0 h1 h2⟩)
  · exact Or.inr (Or.inr (Or.inl ⟨h0, h1, h2, resolve_grow2 p c0 c1 c2 m0 m1 m2 h0 h1 h2⟩))
  · refine Or.inr (Or.inr (Or.inr (Or.inl ⟨h0, h1, h2, ?_⟩)))
    rcases lt_or_ge c0 p.d0 with e0 | e0 <;> rcases lt_or_ge c1 p.d1 with e1 | e1 <;>
      rcases lt_or_ge c2 p.d2 with e2 | e2
    · exact Or.inr (resolve_keepNone p c0 c1 c2 m0 m1 m2 h0 h1 h2 (Or.inr (Or.inl ⟨e0, e1⟩)))
    · exact Or.inr (resolve_keepNone p c0 c1 c2 m0 m1 m2 h0 h1 h2 (Or.inr (Or.inl ⟨e0, e1⟩)))
    · exact Or.inr (resolve_keepNone p c0 c1 c2 m0 m1 m2 h0 h1 h2
        (Or.inr (Or.inr (Or.inl ⟨e0, e2⟩))))
    · exact Or.inl (resolve_rollup p c0 c1 c2 m0 m1 m2 h0 h1 h2 (Or.inl ⟨e0, e1, e2⟩))
    · exact Or.inr (resolve_keepNone p c0 c1 c2 m0 m1 m2 h0 h1 h2
        (Or.inr (Or.inr (Or.inr ⟨e1, e2⟩))))
    · exact Or.inl (resolve_rollup p c0 c1 c2 m0 m1 m2 h0 h1 h2 (Or.inr (Or.inl ⟨e0, e1, e2⟩)))
    · exact Or.inl (resolve_rollup p c0 c1 c2 m0 m1 m2 h0 h1 h2 (Or.inr (Or.inr ⟨e0, e1, e2⟩)))
    · exact Or.inr (resolve_keepNone p c0 c1 c2 m0 m1 m2 h0 h1 h2 (Or.inl ⟨e0, e1, e2⟩))

/-! Structure of the traversal output: every tuple's per-axis path lengths
are determined by its node's depth (the number of levels of that axis above
it), so length vectors of different tuples are always pointwise comparable. -/


theorem cntAx_succ (axisOf : List Int) (i : Int) (d : Nat) :
    cntAx axisOf i (d + 1) = cntAx axisOf i d + (if axisAt axisOf d = i then 1 else 0) := by
  unfold cntAx
  rw [List.range_succ, List.filter_append, List.length_append]
  simp only [List.filter_cons, List.filter_nil]
  split <;> simp_all

theorem cntAx_mono (axisOf : List Int) (i : Int) {d e : Nat} (h : d ≤ e) :
    cntAx axisOf i d ≤ cntAx axisOf i e := by
  unfold cntAx
  exact ((List.range_sublist.mpr h).filter _).length_le

/-- Step form of `cntAx` phrased through `axCur`, valid for the three real
axes (which are never `-1`). -/
theorem cntAx_step (axisOf : List Int) (i : Int) (hi : i ≠ -1) (depth : Nat) :
    cntAx axisOf i depth =
      cntAx axisOf i (depth - 1) + (if axCur axisOf depth = i then 1 else 0) := by
  cases depth with
  | zero => simp [axCur, hi.symm]
  | succ d =>
    simp only [axCur, Nat.succ_ne_zero, if_false, Nat.add_sub_cancel]
    exact cntAx_succ axisOf i d

theorem extendPath_length (axisOf : List Int) (depth : Nat) (i : Int)
    (p : List String) (value : Option String) :
    (extendPath axisOf depth i p value).length =
      p.length + (if axCur axisOf depth = i then 1 else 0) := by
  unfold extendPath
  split <;> simp

mutual

/-- Every tuple the traversal emits below a node whose incoming paths have
the lengths dictated by the node's depth has path lengths `cntAx _ i d` for
one common tree depth `d`. -/
theorem traverseNode_lens (axisOf : List Int) (node : MNode) (depth : Nat)
    (p0 p1 p2 : List String)
    (h0 : p0.length = cntAx axisOf 0 (depth - 1))
    (h1 : p1.length = cntAx axisOf 1 (depth - 1))
    (h2 : p2.length = cntAx axisOf 2 (depth - 1)) :
    ∀ r ∈ traverseNode axisOf node depth p0 p1 p2,
      ∃ d, r.p0.length = cntAx axisOf 0 d ∧ r.p1.length = cntAx axisOf 1 d ∧
        r.p2.length = cntAx axisOf 2 d := by
  match node with
  | .mk value values children =>
    intro r hr
    rw [traverseNode_mk] at hr
    have hq0 : (extendPath axisOf depth 0 p0 value).length = cntAx axisOf 0 depth := by
      rw [extendPath_length, h0, cntAx_step axisOf 0 (by decide) depth]
    have hq1 : (extendPath axisOf depth 1 p1 value).length = cntAx axisOf 1 depth := by
      rw [extendPath_length, h1, cntAx_step axisOf 1 (by decide) depth]
    have hq2 : (extendPath axisOf depth 2 p2 value).length = cntAx axisOf 2 depth := by
      rw [extendPath_length, h2, cntAx_step axisOf 2 (by decide) depth]
    rcases List.mem_append.mp hr with hr | hr
    · refine ⟨depth, ?_, ?_, ?_⟩ <;>
      · rcases values with _ | vg <;> simp only [List.mem_singleton, List.not_mem_nil] at hr
        subst hr
        simpa using by first | exact hq0 | exact hq1 | exact hq2
    · exact traverseKids_lens axisOf children (depth + 1) _ _ _
        (by simpa using hq0) (by simpa using hq1) (by simpa using hq2) r hr

/-- List version of `traverseNode_lens`. -/
theorem traverseKids_lens (axisOf : List Int) (ns : List MNode) (depth : Nat)
    (p0 p1 p2 : List String)
    (h0 : p0.length = cntAx axisOf 0 (depth - 1))
    (h1 : p1.length = cntAx axisOf 1 (depth - 1))
    (h2 : p2.length = cntAx axisOf 2 (depth - 1)) :
    ∀ r ∈ traverseKids axisOf ns depth p0 p1 p2,
      ∃ d, r.p0.length = cntAx axisOf 0 d ∧ r.p1.length = cntAx axisOf 1 d ∧
        r.p2.length = cntAx axisOf 2 d := by
  match ns with
  | [] => intro r hr; rw [traverseKids_nil] at hr; cases hr
  | n :: rest =>
    intro r hr
    rw [traverseKids_cons] at hr
    rcases List.mem_append.mp hr with hr | hr
    · exact traverseNode_lens axisOf n depth p0 p1 p2 h0 h1 h2 r hr
    · exact traverseKids_lens axisOf rest depth p0 p1 p2 h0 h1 h2 r hr

end


theorem domTuple_refl (r : PathTuple) : domTuple r r :=
  ⟨le_refl _, le_refl _, le_refl _⟩

theorem domTuple_trans {r s t : PathTuple} (h : domTuple r s) (h2 : domTuple s t) :
    domTuple r t :=
  ⟨h.1.trans h2.1, h.2.1.trans h2.2.1, h.2.2.trans h2.2.2⟩

/-- Any two tuples of one traversal have pointwise comparable length
vectors: both are `cntAx` images of tree depths. -/
theorem traverseTree_chain (axisOf : List Int) (root : MNode) :
    ∀ r ∈ traverseTree axisOf root, ∀ s ∈ traverseTree axisOf root,
      domTuple r s ∨ domTuple s r := by
  intro r hr s hs
  have h0 : ([] : List String).length = cntAx axisOf 0 (0 - 1) := by simp [cntAx]
  have h1 : ([] : List String).length = cntAx axisOf 1 (0 - 1) := by simp [cntAx]
  have h2 : ([] : List String).length = cntAx axisOf 2 (0 - 1) := by simp [cntAx]
  obtain ⟨d, hd0, hd1, hd2⟩ := traverseNode_lens axisOf root 0 [] [] [] h0 h1 h2 r hr
  obtain ⟨e, he0, he1, he2⟩ := traverseNode_lens axisOf root 0 [] [] [] h0 h1 h2 s hs
  rcases le_total d e with h | h
  · exact Or.inl ⟨hd0 ▸ he0 ▸ cntAx_mono axisOf 0 h, hd1 ▸ he1 ▸ cntAx_mono axisOf 1 h,
      hd2 ▸ he2 ▸ cntAx_mono axisOf 2 h⟩
  · exact Or.inr ⟨he0 ▸ hd0 ▸ cntAx_mono axisOf 0 h, he1 ▸ hd1 ▸ cntAx_mono axisOf 1 h,
      he2 ▸ hd2 ▸ cntAx_mono axisOf 2 h⟩

/-- A nonempty pointwise-comparable tuple list has a tuple whose length
vector dominates all others. -/
theorem exists_dominator (l : List PathTuple) (hne : l ≠ [])
    (hchain : ∀ r ∈ l, ∀ s ∈ l, domTuple r s ∨ domTuple s r) :
    ∃ m ∈ l, ∀ r ∈ l, domTuple r m := by
  induction l with
  | nil => cases hne rfl
  | cons x xs ih =>
    rcases eq_or_ne xs [] with rfl | hxs
    · exact ⟨x, List.mem_cons_self x [], by
        intro r hr
        rcases List.mem_cons.mp hr with rfl | hr
        · exact domTuple_refl r
        · cases hr⟩
    · obtain ⟨m, hm, hdom⟩ := ih hxs (fun r hr s hs =>
        hchain r (List.mem_cons_of_mem x hr) s (List.mem_cons_of_mem x hs))
      rcases hchain x (List.mem_cons_self x xs) m (List.mem_cons_of_mem x hm) with h | h
      · refine ⟨m, List.mem_cons_of_mem x hm, ?_⟩
        intro r hr
        rcases List.mem_cons.mp hr with rfl | hr
        · exact h
        · exact hdom r hr
      · refine ⟨x, List.mem_cons_self x xs, ?_⟩
        intro r hr
        rcases List.mem_cons.mp hr with rfl | hr
        · exact domTuple_refl r
        · exact domTuple_trans (hdom r hr) h

theorem foldl_max_init_le (l : List Nat) (a : Nat) : a ≤ l.foldl max a := by
  induction l generalizing a with
  | nil => exact le_refl a
  | cons y ys ih => exact le_trans (le_max_left a y) (ih (max a y))

theorem le_foldl_max {l : List Nat} {x : Nat} (h : x ∈ l) (a : Nat) : x ≤ l.foldl max a := by
  induction l generalizing a with
  | nil => cases h
  | cons y ys ih =>
    rcases List.mem_cons.mp h with rfl | h
    · exact le_trans (le_max_right a x) (foldl_max_init_le ys (max a x))
    · exact ih h (max a y)

theorem foldl_max_le {l : List Nat} {b : Nat} (h : ∀ y ∈ l, y ≤ b) {a : Nat} (ha : a ≤ b) :
    l.foldl max a ≤ b := by
  induction l generalizing a with
  | nil => exact ha
  | cons y ys ih =>
    exact ih (fun z hz => h z (List.mem_cons_of_mem y hz))
      (max_le ha (h y (List.mem_cons_self y ys)))

/-- Every observed depth is at most the maximum observed depth. -/
theorem le_maxDepth {l : List Nat} {x : Nat} (h : x ∈ l) : x ≤ maxDepth l :=
  le_foldl_max h 0

/-- The maximum observed depth is attained by a dominating element. -/
theorem maxDepth_eq {l : List Nat} {x : Nat} (hx : x ∈ l) (h : ∀ y ∈ l, y ≤ x) :
    maxDepth l = x :=
  le_antisymm (foldl_max_le h (Nat.zero_le x)) (le_maxDepth hx)

/-- Membership characterization of `buildCellsAtDepths`: exactly the tuples
whose per-axis path lengths match the requested depths contribute a cell. -/
theorem mem_buildCellsAtDepths {sep : String} {raw : List PathTuple}
    {d0 d1 d2 : Nat} {c : Cell} :
    c ∈ buildCellsAtDepths sep raw d0 d1 d2 ↔
      ∃ r, r ∈ raw ∧ r.p0.length = d0 ∧ r.p1.length = d1 ∧ r.p2.length = d2 ∧
        c = mkCellOf sep r := by
  induction raw with
  | nil => simp [buildCellsAtDepths]
  | cons r rest ih =>
    simp only [buildCellsAtDepths]
    split
    case isTrue h =>
      rw [List.mem_cons, ih]
      constructor
      · rintro (rfl | ⟨s, hs, k0, k1, k2, rfl⟩)
        · exact ⟨r, List.mem_cons_self r rest, h.1, h.2.1, h.2.2, rfl⟩
        · exact ⟨s, List.mem_cons_of_mem r hs, k0, k1, k2, rfl⟩
      · rintro ⟨s, hs, k0, k1, k2, rfl⟩
        rcases List.mem_cons.mp hs with rfl | hs
        · exact Or.inl rfl
        · exact Or.inr ⟨s, hs, k0, k1, k2, rfl⟩
    case isFalse h =>
      rw [ih]
      constructor
      · rintro ⟨s, hs, k0, k1, k2, rfl⟩
        exact ⟨s, List.mem_cons_of_mem r hs, k0, k1, k2, rfl⟩
      · rintro ⟨s, hs, k0, k1, k2, rfl⟩
        rcases List.mem_cons.mp hs with rfl | hs
        · exact absurd ⟨k0, k1, k2⟩ h
        · exact ⟨s, hs, k0, k1, k2, rfl⟩

/-- A dominating tuple realizes all three fallback maxima simultaneously, so
the final fallback materialization of a nonempty traversal is nonempty. -/
theorem fallbackCells_ne_nil (sep : String) (axisOf : List Int) (root : MNode)
    (resolved cand : DepthState) (h : traverseTree axisOf root ≠ []) :
    (fallbackCells sep (traverseTree axisOf root) resolved cand).2 ≠ [] := by
  obtain ⟨m, hm, hdom⟩ :=
    exists_dominator (traverseTree axisOf root) h (traverseTree_chain axisOf root)
  simp only [fallbackCells]
  split
  case isFalse hA =>
    simpa using fun hnil => hA (by simp [hnil])
  case isTrue hA =>
    split
    case isFalse hB =>
      simpa using fun hnil => hB (by simp [hnil])
    case isTrue hB =>
      have hf0 : (traverseTree axisOf root).foldl (fun a r => max a r.p0.length) 0 =
          m.p0.length := by
        rw [show (traverseTree axisOf root).foldl (fun a r => max a r.p0.length) 0 =
            maxDepth ((traverseTree axisOf root).map (fun r => r.p0.length)) from
          (List.foldl_map _ _ _ _).symm]
        exact maxDepth_eq (List.mem_map_of_mem _ hm)
          (by intro y hy; obtain ⟨r, hr, rfl⟩ := List.mem_map.mp hy; exact (hdom r hr).1)
      have hf1 : (traverseTree axisOf root).foldl (fun a r => max a r.p1.length) 0 =
          m.p1.length := by
        rw [show (traverseTree axisOf root).foldl (fun a r => max a r.p1.length) 0 =
            maxDepth ((traverseTree axisOf root).map (fun r => r.p1.length)) from
          (List.foldl_map _ _ _ _).symm]
        exact maxDepth_eq (List.mem_map_of_mem _ hm)
          (by intro y hy; obtain ⟨r, hr, rfl⟩ := List.mem_map.mp hy; exact (hdom r hr).2.1)
      have hf2 : (traverseTree axisOf root).foldl (fun a r => max a r.p2.length) 0 =
          m.p2.length := by
        rw [show (traverseTree axisOf root).foldl (fun a r => max a r.p2.length) 0 =
            maxDepth ((traverseTree axisOf root).map (fun r => r.p2.length)) from
          (List.foldl_map _ _ _ _).symm]
        exact maxDepth_eq (List.mem_map_of_mem _ hm)
          (by intro y hy; obtain ⟨r, hr, rfl⟩ := List.mem_map.mp hy; exact (hdom r hr).2.2)
      refine List.ne_nil_of_mem (a := mkCellOf sep m) ?_
      rw [hf0, hf1, hf2]
      exact mem_buildCellsAtDepths.mpr ⟨m, hm, rfl, rfl, rfl, rfl⟩

/-- The fallback recomputation of the axis-0 maximum equals `maxDepth`. -/
theorem fold_len0_eq (raw : List PathTuple) :
    raw.foldl (fun a r => max a r.p0.length) 0 =
      maxDepth (raw.map (fun r => r.p0.length)) :=
  (List.foldl_map _ _ _ _).symm

/-- The fallback recomputation of the axis-1 maximum equals `maxDepth`. -/
theorem fold_len1_eq (raw : List PathTuple) :
    raw.foldl (fun a r => max a r.p1.length) 0 =
      maxDepth (raw.map (fun r => r.p1.length)) :=
  (List.foldl_map _ _ _ _).symm

/-- The fallback recomputation of the axis-2 maximum equals `maxDepth`. -/
theorem fold_len2_eq (raw : List PathTuple) :
    raw.foldl (fun a r => max a r.p2.length) 0 =
      maxDepth (raw.map (fun r => r.p2.length)) :=
  (List.foldl_map _ _ _ _).symm

/-- When the resolved depths already materialize cells, no fallback fires. -/
theorem fallbackCells_of_ne (sep : String) (raw : List PathTuple)
    (resolved cand : DepthState)
    (hne : buildCellsAtDepths sep raw resolved.d0 resolved.d1 resolved.d2 ≠ []) :
    fallbackCells sep raw resolved cand =
      (resolved, buildCellsAtDepths sep raw resolved.d0 resolved.d1 resolved.d2) := by
  unfold fallbackCells
  rw [if_neg (by simpa [List.isEmpty_iff] using hne)]

/-- When the resolved depths materialize nothing and the modal depths equal
the maxima, both fallbacks land on the max-depth state and cells. -/
theorem fallbackCells_of_empty (sep : String) (raw : List PathTuple)
    (resolved : DepthState) (m0 m1 m2 : Nat)
    (hmax0 : m0 = maxDepth (raw.map (fun r => r.p0.length)))
    (hmax1 : m1 = maxDepth (raw.map (fun r => r.p1.length)))
    (hmax2 : m2 = maxDepth (raw.map (fun r => r.p2.length)))
    (hemp : buildCellsAtDepths sep raw resolved.d0 resolved.d1 resolved.d2 = []) :
    fallbackCells sep raw resolved ⟨m0, m1, m2⟩ =
      (⟨m0, m1, m2⟩, buildCellsAtDepths sep raw m0 m1 m2) := by
  unfold fallbackCells
  rw [if_pos (by simp [hemp])]
  dsimp only
  split
  · rw [fold_len0_eq, fold_len1_eq, fold_len2_eq, ← hmax0, ← hmax1, ← hmax2]
  · rfl

/-- A depth triple that materializes at least one cell is bounded by the
per-axis maximum observed depths. -/
theorem build_ne_imp_le {sep : String} {raw : List PathTuple} {d0 d1 d2 : Nat}
    (hne : buildCellsAtDepths sep raw d0 d1 d2 ≠ []) :
    d0 ≤ maxDepth (raw.map (fun r => r.p0.length)) ∧
    d1 ≤ maxDepth (raw.map (fun r => r.p1.length)) ∧
    d2 ≤ maxDepth (raw.map (fun r => r.p2.length)) := by
  obtain ⟨c, hc⟩ := List.exists_mem_of_ne_nil _ hne
  obtain ⟨r, hr, h0, h1, h2, _⟩ := mem_buildCellsAtDepths.mp hc
  exact ⟨h0 ▸ le_maxDepth (List.mem_map_of_mem _ hr),
    h1 ▸ le_maxDepth (List.mem_map_of_mem _ hr),
    h2 ▸ le_maxDepth (List.mem_map_of_mem _ hr)⟩

/-- When the state already sits at the maxima and the modal depths agree,
the resolution keeps it. -/
theorem resolve_at_max (c0 c1 c2 : Nat) :
    resolveDepths (some ⟨c0, c1, c2⟩) c0 c1 c2 c0 c1 c2 = ⟨c0, c1, c2⟩ :=
  resolve_keepNone ⟨c0, c1, c2⟩ c0 c1 c2 c0 c1 c2 (le_refl _) (le_refl _) (le_refl _)
    (Or.inl ⟨le_refl _, le_refl _, le_refl _⟩)

/-- A first resolution with modal depths equal to the maxima picks the modal
depths (no lift). -/
theorem resolve_none_at_max (c0 c1 c2 : Nat) :
    resolveDepths none c0 c1 c2 c0 c1 c2 = ⟨c0, c1, c2⟩ := by
  simp [resolveDepths]

/-- Core of idempotence: when each axis's modal depth equals its maximum
observed depth, running depth resolution plus fallback a second time from
the state the first run persisted reproduces the first run's state and
cells. -/
theorem stage_round (sep : String) (raw : List PathTuple) (m0 m1 m2 : Nat)
    (hmax0 : m0 = maxDepth (raw.map (fun r => r.p0.length)))
    (hmax1 : m1 = maxDepth (raw.map (fun r => r.p1.length)))
    (hmax2 : m2 = maxDepth (raw.map (fun r => r.p2.length)))
    (prev : Option DepthState) :
    fallbackCells sep raw
      (resolveDepths
        (some (fallbackCells sep raw (resolveDepths prev m0 m1 m2 m0 m1 m2) ⟨m0, m1, m2⟩).1)
        m0 m1 m2 m0 m1 m2) ⟨m0, m1, m2⟩ =
    fallbackCells sep raw (resolveDepths prev m0 m1 m2 m0 m1 m2) ⟨m0, m1, m2⟩ := by
  rcases eq_or_ne (buildCellsAtDepths sep raw (resolveDepths prev m0 m1 m2 m0 m1 m2).d0
      (resolveDepths prev m0 m1 m2 m0 m1 m2).d1
      (resolveDepths prev m0 m1 m2 m0 m1 m2).d2) [] with hemp | hne
  · rw [fallbackCells_of_empty sep raw _ m0 m1 m2 hmax0 hmax1 hmax2 hemp]
    dsimp only
    rw [resolve_at_max]
    rcases eq_or_ne (buildCellsAtDepths sep raw m0 m1 m2) [] with hemp2 | hne2
    · exact fallbackCells_of_empty sep raw ⟨m0, m1, m2⟩ m0 m1 m2 hmax0 hmax1 hmax2 hemp2
    · exact fallbackCells_of_ne sep raw ⟨m0, m1, m2⟩ ⟨m0, m1, m2⟩ hne2
  · rw [fallbackCells_of_ne sep raw _ ⟨m0, m1, m2⟩ hne]
    dsimp only
    obtain ⟨hle0, hle1, hle2⟩ := build_ne_imp_le hne
    rw [← hmax0] at hle0
    rw [← hmax1] at hle1
    rw [← hmax2] at hle2
    have key : resolveDepths (some (resolveDepths prev m0 m1 m2 m0 m1 m2)) m0 m1 m2 m0 m1 m2 =
        resolveDepths prev m0 m1 m2 m0 m1 m2 := by
      rcases prev with _ | p
      · rw [resolve_none_at_max]
        exact resolve_at_max m0 m1 m2
      · rcases resolve_cases p m0 m1 m2 m0 m1 m2 with
          ⟨h0, h1, h2, heq⟩ | ⟨h0, h1, h2, heq⟩ | ⟨h0, h1, h2, heq⟩ |
          ⟨h0, h1, h2, hcc⟩ | ⟨htwo, heq⟩
        · rw [heq] at hle1 hle2 ⊢
          dsimp only at hle1 hle2
          rw [le_antisymm hle1 h1, le_antisymm hle2 h2]
          exact resolve_at_max m0 m1 m2
        · rw [heq] at hle0 hle2 ⊢
          dsimp only at hle0 hle2
          rw [le_antisymm hle0 h0, le_antisymm hle2 h2]
          exact resolve_at_max m0 m1 m2
        · rw [heq] at hle0 hle1 ⊢
          dsimp only at hle0 hle1
          rw [le_antisymm hle0 h0, le_antisymm hle1 h1]
          exact resolve_at_max m0 m1 m2
        · rcases hcc with heq | heq
          · rw [heq]
            exact resolve_at_max m0 m1 m2
          · rw [heq] at hle0 hle1 hle2 ⊢
            dsimp only at hle0 hle1 hle2
            rw [le_antisymm hle0 h0, le_antisymm hle1 h1, le_antisymm hle2 h2]
            exact resolve_at_max m0 m1 m2
        · rw [heq]
          exact resolve_keepMulti ⟨p.d0, p.d1, p.d2⟩ m0 m1 m2 m0 m1 m2 htwo
    rw [key]
    exact fallbackCells_of_ne sep raw _ ⟨m0, m1, m2⟩ hne

/-- Idempotence of the depth stage when modal depths equal max depths. -/
theorem depthStage_idem (sep : String) (axisOf : List Int) (root : MNode)
    (prev : Option DepthState)
    (h0 : modalDepth ((traverseTree axisOf root).map (fun r => r.p0.length)) =
      maxDepth ((traverseTree axisOf root).map (fun r => r.p0.length)))
    (h1 : modalDepth ((traverseTree axisOf root).map (fun r => r.p1.length)) =
      maxDepth ((traverseTree axisOf root).map (fun r => r.p1.length)))
    (h2 : modalDepth ((traverseTree axisOf root).map (fun r => r.p2.length)) =
      maxDepth ((traverseTree axisOf root).map (fun r => r.p2.length))) :
    depthStage sep axisOf root (some (depthStage sep axisOf root prev).1) =
      depthStage sep axisOf root prev := by
  simp only [depthStage]
  rw [h0, h1, h2]
  exact stage_round sep (traverseTree axisOf root) _ _ _ rfl rfl rfl prev

/-! Properties of the Top-N comparator and selection. -/

theorem strLtB_asymm : ∀ {a b : List Char},
    strLtB a b = true → strLtB b a = true → False := by
  intro a
  induction a with
  | nil =>
    intro b h1 h2
    cases b with
    | nil => simp [strLtB] at h1
    | cons y ys => simp [strLtB] at h2
  | cons x xs ih =>
    intro b h1 h2
    cases b with
    | nil => simp [strLtB] at h1
    | cons y ys =>
      simp only [strLtB] at h1 h2
      by_cases hxy : x < y
      · rw [if_neg (lt_asymm hxy), if_pos hxy] at h2
        cases h2
      · by_cases hyx : y < x
        · rw [if_neg hxy, if_pos hyx] at h1
          cases h1
        · rw [if_neg hxy, if_neg hyx] at h1
          rw [if_neg hyx, if_neg hxy] at h2
          exact ih h1 h2

theorem strLtB_trans : ∀ {a b c : List Char},
    strLtB a b = true → strLtB b c = true → strLtB a c = true := by
  intro a
  induction a with
  | nil =>
    intro b c h1 h2
    cases b with
    | nil => simp [strLtB] at h1
    | cons y ys =>
      cases c with
      | nil => simp [strLtB] at h2
      | cons z zs => simp [strLtB]
  | cons x xs ih =>
    intro b c h1 h2
    cases b with
    | nil => simp [strLtB] at h1
    | cons y ys =>
      cases c with
      | nil => simp [strLtB] at h2
      | cons z zs =>
        simp only [strLtB] at h1 h2 ⊢
        rcases lt_trichotomy x y with hxy | hxy | hxy
        · rcases lt_trichotomy y z with hyz | hyz | hyz
          · rw [if_pos (lt_trans hxy hyz)]
          · subst hyz
            rw [if_pos hxy]
          · rw [if_neg (lt_asymm hyz), if_pos hyz] at h2
            cases h2
        · subst hxy
          rw [if_neg (lt_irrefl x), if_neg (lt_irrefl x)] at h1
          rcases lt_trichotomy x z with hxz | hxz | hxz
          · rw [if_pos hxz]
          · subst hxz
            rw [if_neg (lt_irrefl x), if_neg (lt_irrefl x)] at h2 ⊢
            exact ih h1 h2
          · rw [if_neg (lt_asymm hxz), if_pos hxz] at h2
            cases h2
        · rw [if_neg (lt_asymm hxy), if_pos hxy] at h1
          cases h1

theorem strLtB_total : ∀ (a b : List Char),
    strLtB a b = true ∨ strLtB b a = true ∨ a = b := by
  intro a
  induction a with
  | nil =>
    intro b
    cases b with
    | nil => exact Or.inr (Or.inr rfl)
    | cons y ys => exact Or.inl (by simp [strLtB])
  | cons x xs ih =>
    intro b
    cases b with
    | nil => exact Or.inr (Or.inl (by simp [strLtB]))
    | cons y ys =>
      rcases lt_trichotomy x y with hxy | hxy | hxy
      · exact Or.inl (by simp only [strLtB]; rw [if_pos hxy])
      · subst hxy
        rcases ih ys with h | h | h
        · exact Or.inl (by simp only [strLtB]; rw [if_neg (lt_irrefl x), if_neg (lt_irrefl x)]; exact h)
        · exact Or.inr (Or.inl (by simp only [strLtB]; rw [if_neg (lt_irrefl x), if_neg (lt_irrefl x)]; exact h))
        · exact Or.inr (Or.inr (by rw [h]))
      · exact Or.inr (Or.inl (by simp only [strLtB]; rw [if_pos hxy]))

theorem string_eq_of_data {a b : String} (h : a.data = b.data) : a = b := by
  cases a
  cases b
  exact congrArg String.mk h

theorem keyLe_total (a b : String) : keyLe a b ∨ keyLe b a := by
  rcases strLtB_total a.data b.data with h | h | h
  · exact Or.inl (Or.inl h)
  · exact Or.inr (Or.inl h)
  · exact Or.inl (Or.inr (string_eq_of_data h))

theorem keyLe_trans {a b c : String} (h1 : keyLe a b) (h2 : keyLe b c) : keyLe a c := by
  rcases h1 with h1 | rfl
  · rcases h2 with h2 | rfl
    · exact Or.inl (strLtB_trans h1 h2)
    · exact Or.inl h1
  · exact h2

theorem keyLe_antisymm {a b : String} (h1 : keyLe a b) (h2 : keyLe b a) : a = b := by
  rcases h1 with h1 | rfl
  · rcases h2 with h2 | rfl
    · exact absurd (strLtB_asymm h1 h2) not_false
    · rfl
  · rfl

theorem entryLe_total (a b : String × Int) : entryLe a b ∨ entryLe b a := by
  unfold entryLe
  rcases lt_trichotomy a.2 b.2 with h | h | h
  · exact Or.inr (Or.inl h)
  · rcases keyLe_total a.1 b.1 with hs | hs
    · exact Or.inl (Or.inr ⟨h, hs⟩)
    · exact Or.inr (Or.inr ⟨h.symm, hs⟩)
  · exact Or.inl (Or.inl h)

theorem entryLe_trans (a b c : String × Int)
    (hab : entryLe a b) (hbc : entryLe b c) : entryLe a c := by
  rcases hab with h | ⟨he, hs⟩ <;> rcases hbc with h2 | ⟨he2, hs2⟩
  · exact Or.inl (lt_trans h2 h)
  · exact Or.inl (he2 ▸ h)
  · exact Or.inl (he ▸ h2)
  · exact Or.inr ⟨he.trans he2, keyLe_trans hs hs2⟩

theorem entryLe_antisymm (a b : String × Int)
    (hab : entryLe a b) (hba : entryLe b a) : a = b := by
  rcases hab with h | ⟨he, hs⟩ <;> rcases hba with h2 | ⟨he2, hs2⟩
  · exact absurd (lt_trans h h2) (lt_irrefl _)
  · exact absurd h (he2 ▸ lt_irrefl _)
  · exact absurd h2 (he ▸ lt_irrefl _)
  · exact Prod.ext (keyLe_antisymm hs hs2) he

/-- The sort underlying `pickTop` depends only on the multiset of entries:
the comparator is total, transitive and antisymmetric, so any two sorted
permutations coincide. -/
theorem insertionSort_entryLe_eq {l1 l2 : List (String × Int)} (h : l1.Perm l2) :
    List.insertionSort entryLe l1 = List.insertionSort entryLe l2 := by
  haveI : IsTotal (String × Int) entryLe := ⟨entryLe_total⟩
  haveI : IsTrans (String × Int) entryLe := ⟨entryLe_trans⟩
  haveI : IsAntisymm (String × Int) entryLe := ⟨entryLe_antisymm⟩
  exact List.eq_of_perm_of_sorted
    ((List.perm_insertionSort entryLe l1).trans
      (h.trans (List.perm_insertionSort entryLe l2).symm))
    (List.sorted_insertionSort entryLe l1)
    (List.sorted_insertionSort entryLe l2)

/-! Properties of filtering and reindexing. -/

/-- Every reindexed cell's coordinates are the index of its composed key in
the corresponding reduced member list, hence within bounds. -/
theorem reindex_coords {cells : List Cell} {o0 o1 o2 : List String} {c : Cell}
    (hc : c ∈ reindex cells o0 o1 o2) :
    c.i0 < o0.length ∧ c.i1 < o1.length ∧ c.i2 < o2.length ∧
      o0.indexOf c.key0 = c.i0 ∧ o1.indexOf c.key1 = c.i1 ∧ o2.indexOf c.key2 = c.i2 := by
  obtain ⟨b, hb, hcond⟩ := List.mem_filterMap.mp hc
  by_cases hin : b.key0 ∈ o0 ∧ b.key1 ∈ o1 ∧ b.key2 ∈ o2
  · rw [if_pos hin] at hcond
    obtain rfl := Option.some.inj hcond
    exact ⟨List.indexOf_lt_length.mpr hin.1, List.indexOf_lt_length.mpr hin.2.1,
      List.indexOf_lt_length.mpr hin.2.2, rfl, rfl, rfl⟩
  · rw [if_neg hin] at hcond
    cases hcond

theorem one_le_sizeOfMembers (l : List String) : 1 ≤ sizeOfMembers l := by
  unfold sizeOfMembers
  split
  · exact le_refl 1
  · exact List.length_pos.mpr (by assumption)










/-! Claim theorems. -/

/-- C1 (amended): for every input tree whose traversal yields at least one
`PathTuple`, the materialized cell list produced by the fallback chain
(resolved depths, then modal depths, then per-axis maximum observed depths)
is non-empty — the final retry always produces at least one cell.  The
original claim's further assertion that the final `CubeDataset.cells` list is
non-empty fails, because Top-N filtering can drop every materialized cell
(see the counterexample). -/
theorem claim_C1_fallback_nonempty (sep : String) (axisOf : List Int) (root : MNode)
    (prev : Option DepthState) (h : traverseTree axisOf root ≠ []) :
    (depthStage sep axisOf root prev).2 ≠ [] := by
  simp only [depthStage]
  exact fallbackCells_ne_nil sep axisOf root _ _ h

/-- C1 counterexample: a tree with three data points (so the traversal is
non-empty) whose final `CubeDataset.cells` is empty under Top-1 reduction,
refuting "the final CubeDataset.cells list is non-empty". -/
theorem claim_C1_counterexample :
    traverseTree [0, 1] treeTopEmpty ≠ [] ∧
    (parseMatrix defaultKeySeparator (some 1) (some 1) (some 1) .totals [0, 1]
      treeTopEmpty none).1.cells = [] := by decide

/-- C1 witness: the amended theorem applied to a concrete two-leaf tree. -/
theorem claim_C1_witness :
    traverseTree [0] treeRect ≠ [] ∧
    (depthStage defaultKeySeparator [0] treeRect none).2 ≠ [] :=
  ⟨by decide, claim_C1_fallback_nonempty defaultKeySeparator [0] treeRect none (by decide)⟩

/-- C2: with a prior depth state, when exactly one axis has positive growth
`max[i] - prev[i]` (the other two do not grow), that axis's resolved depth
equals its maximum observed depth and the other two axes keep exactly their
previous depths. -/
theorem claim_C2_single_axis_drill (p : DepthState) (c0 c1 c2 m0 m1 m2 : Nat) :
    (p.d0 < m0 → m1 ≤ p.d1 → m2 ≤ p.d2 →
      resolveDepths (some p) c0 c1 c2 m0 m1 m2 = ⟨m0, p.d1, p.d2⟩) ∧
    (m0 ≤ p.d0 → p.d1 < m1 → m2 ≤ p.d2 →
      resolveDepths (some p) c0 c1 c2 m0 m1 m2 = ⟨p.d0, m1, p.d2⟩) ∧
    (m0 ≤ p.d0 → m1 ≤ p.d1 → p.d2 < m2 →
      resolveDepths (some p) c0 c1 c2 m0 m1 m2 = ⟨p.d0, p.d1, m2⟩) :=
  ⟨fun h0 h1 h2 => resolve_grow0 p c0 c1 c2 m0 m1 m2 h0 h1 h2,
   fun h0 h1 h2 => resolve_grow1 p c0 c1 c2 m0 m1 m2 h0 h1 h2,
   fun h0 h1 h2 => resolve_grow2 p c0 c1 c2 m0 m1 m2 h0 h1 h2⟩

/-- C2 witness: from prior state (1,1,1), when axis 1's max observed depth
becomes 2 while axes 0 and 2 stay at 1, the resolved state is (1,2,1). -/
theorem claim_C2_witness :
    resolveDepths (some ⟨1, 1, 1⟩) 1 1 1 1 2 1 = ⟨1, 2, 1⟩ :=
  (claim_C2_single_axis_drill ⟨1, 1, 1⟩ 1 1 1 1 2 1).2.1 (by decide) (by decide) (by decide)

/-- C3: with a prior depth state, when two or more axes grow simultaneously,
all three resolved depths equal their previous values. -/
theorem claim_C3_ambiguous_multi_axis (p : DepthState) (c0 c1 c2 m0 m1 m2 : Nat) :
    (p.d0 < m0 → p.d1 < m1 →
      resolveDepths (some p) c0 c1 c2 m0 m1 m2 = ⟨p.d0, p.d1, p.d2⟩) ∧
    (p.d0 < m0 → p.d2 < m2 →
      resolveDepths (some p) c0 c1 c2 m0 m1 m2 = ⟨p.d0, p.d1, p.d2⟩) ∧
    (p.d1 < m1 → p.d2 < m2 →
      resolveDepths (some p) c0 c1 c2 m0 m1 m2 = ⟨p.d0, p.d1, p.d2⟩) :=
  ⟨fun ha hb => resolve_keepMulti p c0 c1 c2 m0 m1 m2 (Or.inl ⟨ha, hb⟩),
   fun ha hb => resolve_keepMulti p c0 c1 c2 m0 m1 m2 (Or.inr (Or.inl ⟨ha, hb⟩)),
   fun ha hb => resolve_keepMulti p c0 c1 c2 m0 m1 m2 (Or.inr (Or.inr ⟨ha, hb⟩))⟩

/-- C3 witness: from prior state (1,1,1), when axes 0 and 2's max observed
depths become 2 simultaneously, the resolved state remains (1,1,1). -/
theorem claim_C3_witness :
    resolveDepths (some ⟨1, 1, 1⟩) 1 1 1 2 1 2 = ⟨1, 1, 1⟩ :=
  (claim_C3_ambiguous_multi_axis ⟨1, 1, 1⟩ 1 1 1 2 1 2).2.1 (by decide) (by decide)

/-- C4 (amended): every cell of a resolved `CubeDataset` has grid coordinates
that are valid indices into the reduced (post-Top-N) member lists — each
coordinate equals the index of the cell's composed key in that axis's ordered
member list, hence lies in `[0, sizeAxis)`.  The original claim's further
assertion that every integer in the range is the coordinate of some cell
(no gaps) fails: a selected member's every cell can be dropped by another
axis's Top-N filter (see the counterexample). -/
theorem claim_C4_coords_in_range (sep : String) (top0 top1 top2 : Option Int)
    (sm : SortMode) (axisOf : List Int) (root : MNode) (prev : Option DepthState)
    (c : Cell) (hc : c ∈ (parseMatrix sep top0 top1 top2 sm axisOf root prev).1.cells) :
    c.i0 < (parseMatrix sep top0 top1 top2 sm axisOf root prev).1.members0.length ∧
    c.i1 < (parseMatrix sep top0 top1 top2 sm axisOf root prev).1.members1.length ∧
    c.i2 < (parseMatrix sep top0 top1 top2 sm axisOf root prev).1.members2.length ∧
    (parseMatrix sep top0 top1 top2 sm axisOf root prev).1.members0.indexOf c.key0 = c.i0 ∧
    (parseMatrix sep top0 top1 top2 sm axisOf root prev).1.members1.indexOf c.key1 = c.i1 ∧
    (parseMatrix sep top0 top1 top2 sm axisOf root prev).1.members2.indexOf c.key2 = c.i2 := by
  simp only [parseMatrix, postProcess] at hc ⊢
  exact reindex_coords hc

/-- C4 counterexample: a dataset whose axis-0 member list has length 2
(`size0 = 2`) while the only cell has coordinate 0, so coordinate 1 in
`[0, size0)` is the coordinate of no cell — the range has a gap. -/
theorem claim_C4_counterexample :
    (parseMatrix defaultKeySeparator (some 2) (some 1) (some 10) .totals [0, 1]
      treeGap none).1.size0 = 2 ∧
    ((parseMatrix defaultKeySeparator (some 2) (some 1) (some 10) .totals [0, 1]
      treeGap none).1.cells.map (fun c => c.i0)) = [0] := by decide

/-- C4 witness: the amended theorem applied to the surviving cell of the
`treeGap` dataset. -/
theorem claim_C4_witness :
    (⟨0, 0, 0, 20, "B", "Y", "All"⟩ : Cell).i0 <
      (parseMatrix defaultKeySeparator (some 2) (some 1) (some 10) .totals [0, 1]
        treeGap none).1.members0.length ∧
    (⟨0, 0, 0, 20, "B", "Y", "All"⟩ : Cell).i1 <
      (parseMatrix defaultKeySeparator (some 2) (some 1) (some 10) .totals [0, 1]
        treeGap none).1.members1.length ∧
    (⟨0, 0, 0, 20, "B", "Y", "All"⟩ : Cell).i2 <
      (parseMatrix defaultKeySeparator (some 2) (some 1) (some 10) .totals [0, 1]
        treeGap none).1.members2.length ∧
    (parseMatrix defaultKeySeparator (some 2) (some 1) (some 10) .totals [0, 1]
      treeGap none).1.members0.indexOf (⟨0, 0, 0, 20, "B", "Y", "All"⟩ : Cell).key0 =
      (⟨0, 0, 0, 20, "B", "Y", "All"⟩ : Cell).i0 ∧
    (parseMatrix defaultKeySeparator (some 2) (some 1) (some 10) .totals [0, 1]
      treeGap none).1.members1.indexOf (⟨0, 0, 0, 20, "B", "Y", "All"⟩ : Cell).key1 =
      (⟨0, 0, 0, 20, "B", "Y", "All"⟩ : Cell).i1 ∧
    (parseMatrix defaultKeySeparator (some 2) (some 1) (some 10) .totals [0, 1]
      treeGap none).1.members2.indexOf (⟨0, 0, 0, 20, "B", "Y", "All"⟩ : Cell).key2 =
      (⟨0, 0, 0, 20, "B", "Y", "All"⟩ : Cell).i2 :=
  claim_C4_coords_in_range defaultKeySeparator (some 2) (some 1) (some 10) .totals [0, 1]
    treeGap none ⟨0, 0, 0, 20, "B", "Y", "All"⟩ (by decide)

/-- C5 (amended): with a prior depth state, an axis's depth resolved by the
inference rule is strictly below its previous depth only via roll-up
detection: then that axis's modal depth is strictly below its previous depth
and its maximum observed depth is at most (not necessarily strictly below)
its previous depth.  The original claim's strict bound on the maximum
observed depth fails (see the counterexample). -/
theorem claim_C5_decrease_only_by_rollup (p : DepthState) (c0 c1 c2 m0 m1 m2 : Nat) :
    ((resolveDepths (some p) c0 c1 c2 m0 m1 m2).d0 < p.d0 → c0 < p.d0 ∧ m0 ≤ p.d0) ∧
    ((resolveDepths (some p) c0 c1 c2 m0 m1 m2).d1 < p.d1 → c1 < p.d1 ∧ m1 ≤ p.d1) ∧
    ((resolveDepths (some p) c0 c1 c2 m0 m1 m2).d2 < p.d2 → c2 < p.d2 ∧ m2 ≤ p.d2) := by
  rcases resolve_cases p c0 c1 c2 m0 m1 m2 with
    ⟨h0, h1, h2, heq⟩ | ⟨h0, h1, h2, heq⟩ | ⟨h0, h1, h2, heq⟩ |
    ⟨h0, h1, h2, hcc⟩ | ⟨htwo, heq⟩
  · rw [heq]
    refine ⟨fun hl => ?_, fun hl => ?_, fun hl => ?_⟩ <;> dsimp only at hl <;> omega
  · rw [heq]
    refine ⟨fun hl => ?_, fun hl => ?_, fun hl => ?_⟩ <;> dsimp only at hl <;> omega
  · rw [heq]
    refine ⟨fun hl => ?_, fun hl => ?_, fun hl => ?_⟩ <;> dsimp only at hl <;> omega
  · rcases hcc with heq | heq <;>
      (rw [heq]; refine ⟨fun hl => ?_, fun hl => ?_, fun hl => ?_⟩ <;>
        dsimp only at hl <;> omega)
  · rw [heq]
    refine ⟨fun hl => ?_, fun hl => ?_, fun hl => ?_⟩ <;> dsimp only at hl <;> omega

/-- C5 counterexample: resolving `treeOscillate` from prior state (1,0,0)
persists axis-0 depth 0, strictly below the previous depth 1, although
axis 0's maximum observed depth is 1, not strictly below the previous
depth. -/
theorem claim_C5_counterexample :
    (parseMatrix defaultKeySeparator none none none .totals [-1, 0] treeOscillate
      (some ⟨1, 0, 0⟩)).2.d0 < 1 ∧
    ¬ (maxDepth ((traverseTree [-1, 0] treeOscillate).map (fun r => r.p0.length)) < 1) := by
  decide

/-- C5 witness: the amended theorem applied to the counterexample's inputs —
the resolved axis-0 depth 0 is below the previous depth 1, and indeed the
modal depth 0 is strictly below 1 while the maximum observed depth 1 is only
at most 1. -/
theorem claim_C5_witness :
    0 < (⟨1, 0, 0⟩ : DepthState).d0 ∧ 1 ≤ (⟨1, 0, 0⟩ : DepthState).d0 :=
  (claim_C5_decrease_only_by_rollup ⟨1, 0, 0⟩ 0 0 0 1 0 0).1 (by decide)

/-- C6 (amended): resolving the same tree twice in succession yields an
identical persisted `AxisDepthState` and an identical `CubeDataset`
(in particular identical composed cell keys), provided each axis's modal
observed depth equals its maximum observed depth.  Without that proviso the
claim fails: roll-up detection can re-fire on the unchanged tree and move the
state (see the counterexample). -/
theorem claim_C6_idempotence (sep : String) (top0 top1 top2 : Option Int)
    (sm : SortMode) (axisOf : List Int) (root : MNode) (prev : Option DepthState)
    (h0 : modalDepth ((traverseTree axisOf root).map (fun r => r.p0.length)) =
      maxDepth ((traverseTree axisOf root).map (fun r => r.p0.length)))
    (h1 : modalDepth ((traverseTree axisOf root).map (fun r => r.p1.length)) =
      maxDepth ((traverseTree axisOf root).map (fun r => r.p1.length)))
    (h2 : modalDepth ((traverseTree axisOf root).map (fun r => r.p2.length)) =
      maxDepth ((traverseTree axisOf root).map (fun r => r.p2.length))) :
    parseMatrix sep top0 top1 top2 sm axisOf root
        (some (parseMatrix sep top0 top1 top2 sm axisOf root prev).2) =
      parseMatrix sep top0 top1 top2 sm axisOf root prev := by
  simp only [parseMatrix]
  rw [depthStage_idem sep axisOf root prev h0 h1 h2]

/-- C6 counterexample: resolving `treeOscillate` twice in succession changes
the persisted depth state from (1,0,0) to (0,0,0) and changes the set of
composed cell keys, refuting idempotence as stated. -/
theorem claim_C6_counterexample :
    (parseMatrix defaultKeySeparator none none none .totals [-1, 0] treeOscillate
        (some (parseMatrix defaultKeySeparator none none none .totals [-1, 0]
          treeOscillate none).2)).2 ≠
      (parseMatrix defaultKeySeparator none none none .totals [-1, 0]
        treeOscillate none).2 ∧
    ((parseMatrix defaultKeySeparator none none none .totals [-1, 0] treeOscillate
        (some (parseMatrix defaultKeySeparator none none none .totals [-1, 0]
          treeOscillate none).2)).1.cells.map (fun c => (c.key0, c.key1, c.key2))) ≠
      ((parseMatrix defaultKeySeparator none none none .totals [-1, 0]
        treeOscillate none).1.cells.map (fun c => (c.key0, c.key1, c.key2))) := by
  decide

/-- C6 witness: the amended theorem applied to a tree whose modal depths
equal its max depths. -/
theorem claim_C6_witness :
    parseMatrix defaultKeySeparator none none none .totals [0] treeRect
        (some (parseMatrix defaultKeySeparator none none none .totals [0]
          treeRect none).2) =
      parseMatrix defaultKeySeparator none none none .totals [0] treeRect none :=
  claim_C6_idempotence defaultKeySeparator none none none .totals [0] treeRect none
    (by decide) (by decide) (by decide)

/-- C7: the `totals` Top-N selection sorts entries by aggregate total
descending with ties broken by ascending key comparison, and the selection is
deterministic — it depends only on the multiset of (member, total) entries,
not on the mapping's iteration order; for totals A = 10, B = 10, C = 5 and
N = 2 the selection is exactly [A, B]. -/
theorem claim_C7_topn_deterministic :
    (∀ (l1 l2 : List (String × Int)) (n : Nat), l1.Perm l2 →
      pickTop l1 n = pickTop l2 n) ∧
    (∀ l : List (String × Int), List.Sorted entryLe (List.insertionSort entryLe l)) ∧
    pickTop [("A", 10), ("B", 10), ("C", 5)] 2 = ["A", "B"] := by
  refine ⟨?_, ?_, by decide⟩
  · intro l1 l2 n h
    unfold pickTop
    rw [insertionSort_entryLe_eq h]
  · intro l
    haveI : IsTotal (String × Int) entryLe := ⟨entryLe_total⟩
    haveI : IsTrans (String × Int) entryLe := ⟨entryLe_trans⟩
    exact List.sorted_insertionSort entryLe l

/-- C7 witness: the determinism part applied to two differently-ordered
presentations of the tied totals. -/
theorem claim_C7_witness :
    pickTop [("C", 5), ("A", 10), ("B", 10)] 2 =
      pickTop [("B", 10), ("C", 5), ("A", 10)] 2 :=
  claim_C7_topn_deterministic.1 _ _ 2 (by decide)

/-- C8: for any requested depth triple, cell materialization retains exactly
the tuples whose per-axis path lengths equal the requested depths; each
retained cell carries the tuple's value, zero initial grid coordinates, and
per-axis keys equal to the path segments joined with the configured separator
or the literal "All" for a zero-length path; the default separator is the
arrow glyph. -/
theorem claim_C8_materialization :
    (∀ (sep : String) (raw : List PathTuple) (d0 d1 d2 : Nat) (c : Cell),
      c ∈ buildCellsAtDepths sep raw d0 d1 d2 ↔
        ∃ r, r ∈ raw ∧ r.p0.length = d0 ∧ r.p1.length = d1 ∧ r.p2.length = d2 ∧
          c.i0 = 0 ∧ c.i1 = 0 ∧ c.i2 = 0 ∧ c.v = r.v ∧
          c.key0 = (if r.p0 = [] then "All" else String.intercalate sep r.p0) ∧
          c.key1 = (if r.p1 = [] then "All" else String.intercalate sep r.p1) ∧
          c.key2 = (if r.p2 = [] then "All" else String.intercalate sep r.p2)) ∧
    defaultKeySeparator = " ▸ " := by
  refine ⟨?_, rfl⟩
  intro sep raw d0 d1 d2 c
  rw [mem_buildCellsAtDepths]
  constructor
  · rintro ⟨r, hr, h0, h1, h2, rfl⟩
    exact ⟨r, hr, h0, h1, h2, rfl, rfl, rfl, rfl, rfl, rfl, rfl⟩
  · rintro ⟨r, hr, h0, h1, h2, hi0, hi1, hi2, hv, hk0, hk1, hk2⟩
    refine ⟨r, hr, h0, h1, h2, ?_⟩
    cases c with
    | mk i0 i1 i2 v k0 k1 k2 =>
      dsimp only at hi0 hi1 hi2 hv hk0 hk1 hk2
      subst hi0
      subst hi1
      subst hi2
      subst hv
      subst hk0
      subst hk1
      subst hk2
      rfl

/-- C8 witness: a concrete one-segment tuple materialized at depths (1,0,0)
with the default separator. -/
theorem claim_C8_witness :
    (⟨0, 0, 0, 5, "a", "All", "All"⟩ : Cell) ∈
      buildCellsAtDepths " ▸ " [⟨["a"], [], [], 5⟩] 1 0 0 :=
  (claim_C8_materialization.1 " ▸ " [⟨["a"], [], [], 5⟩] 1 0 0
      ⟨0, 0, 0, 5, "a", "All", "All"⟩).mpr
    ⟨⟨["a"], [], [], 5⟩, by decide, by decide, by decide, by decide,
      rfl, rfl, rfl, rfl, by decide, by decide, by decide⟩

/-- C9 (amended): malformed nodes degrade instead of failing.  A node whose
value group is empty or whose first measure field has a null value is
recorded as a data point with numeric value 0.  A node with a null member
value where a string key is expected contributes the literal string "null"
as that level's path segment (the stringification of JS `null`) — not a
zero-length path, as the original claim stated (see the counterexample);
the traversal is total, so it never fails on such shapes. -/
theorem claim_C9_degraded_malformed :
    (∀ (axisOf : List Int) (value : Option String) (children : List MNode)
        (depth : Nat) (p0 p1 p2 : List String) (vg : List MeasureField),
      (vg = [] ∨ ∃ rest, vg = ⟨none⟩ :: rest) →
      ∃ rest2,
        traverseNode axisOf (.mk value (some vg) children) depth p0 p1 p2 =
          ⟨extendPath axisOf depth 0 p0 value, extendPath axisOf depth 1 p1 value,
            extendPath axisOf depth 2 p2 value, 0⟩ :: rest2) ∧
    (∀ (axisOf : List Int) (depth : Nat) (p : List String),
      axCur axisOf depth = 0 → extendPath axisOf depth 0 p none = p ++ ["null"]) := by
  constructor
  · intro axisOf value children depth p0 p1 p2 vg hvg
    refine ⟨traverseKids axisOf children (depth + 1) (extendPath axisOf depth 0 p0 value)
      (extendPath axisOf depth 1 p1 value) (extendPath axisOf depth 2 p2 value), ?_⟩
    rw [traverseNode_mk]
    rcases hvg with rfl | ⟨rest, rfl⟩
    · rfl
    · rfl
  · intro axisOf depth p h
    unfold extendPath
    rw [if_pos h]
    rfl

/-- C9 counterexample: a node with a null member value carrying measure 5
contributes a data point whose axis-0 path is `["null"]` — length 1, not a
zero-length path. -/
theorem claim_C9_counterexample :
    traverseTree [0] nullValueTree = [⟨["null"], [], [], 5⟩] ∧
    ∀ r ∈ traverseTree [0] nullValueTree, r.p0.length ≠ 0 := by decide

/-- C9 witness: the amended theorem applied to a node with an empty value
group and to a null member value at an axis-0 level. -/
theorem claim_C9_witness :
    (∃ rest2,
      traverseNode [0] (.mk (some "k") (some []) []) 1 [] [] [] =
        ⟨extendPath [0] 1 0 [] (some "k"), extendPath [0] 1 1 [] (some "k"),
          extendPath [0] 1 2 [] (some "k"), 0⟩ :: rest2) ∧
    extendPath [0] 1 0 [] none = ["null"] :=
  ⟨claim_C9_degraded_malformed.1 [0] (some "k") [] 1 [] [] [] [] (Or.inl rfl),
   claim_C9_degraded_malformed.2 [0] 1 [] (by decide)⟩

/-- C10: whenever the filtered cell list of a resolved dataset is empty, the
dataset's value bounds are the finite defaults `minV = 0` and `maxV = 1`,
and each axis size equals the member list's length or 1 when that list is
empty — in particular every axis size is at least 1. -/
theorem claim_C10_empty_dataset (sep : String) (top0 top1 top2 : Option Int)
    (sm : SortMode) (axisOf : List Int) (root : MNode) (prev : Option DepthState)
    (h : (parseMatrix sep top0 top1 top2 sm axisOf root prev).1.cells = []) :
    (parseMatrix sep top0 top1 top2 sm axisOf root prev).1.minV = 0 ∧
    (parseMatrix sep top0 top1 top2 sm axisOf root prev).1.maxV = 1 ∧
    ((parseMatrix sep top0 top1 top2 sm axisOf root prev).1.size0 =
      (if (parseMatrix sep top0 top1 top2 sm axisOf root prev).1.members0 = [] then 1
        else (parseMatrix sep top0 top1 top2 sm axisOf root prev).1.members0.length) ∧
      1 ≤ (parseMatrix sep top0 top1 top2 sm axisOf root prev).1.size0) ∧
    ((parseMatrix sep top0 top1 top2 sm axisOf root prev).1.size1 =
      (if (parseMatrix sep top0 top1 top2 sm axisOf root prev).1.members1 = [] then 1
        else (parseMatrix sep top0 top1 top2 sm axisOf root prev).1.members1.length) ∧
      1 ≤ (parseMatrix sep top0 top1 top2 sm axisOf root prev).1.size1) ∧
    ((parseMatrix sep top0 top1 top2 sm axisOf root prev).1.size2 =
      (if (parseMatrix sep top0 top1 top2 sm axisOf root prev).1.members2 = [] then 1
        else (parseMatrix sep top0 top1 top2 sm axisOf root prev).1.members2.length) ∧
      1 ≤ (parseMatrix sep top0 top1 top2 sm axisOf root prev).1.size2) := by
  simp only [parseMatrix, postProcess] at h ⊢
  rw [h]
  exact ⟨rfl, rfl, ⟨rfl, one_le_sizeOfMembers _⟩, ⟨rfl, one_le_sizeOfMembers _⟩,
    ⟨rfl, one_le_sizeOfMembers _⟩⟩

/-- C10 witness: the theorem applied to the Top-1 configuration whose
filtered cell list is empty. -/
theorem claim_C10_witness :
    (parseMatrix defaultKeySeparator (some 1) (some 1) (some 1) .totals [0, 1]
      treeTopEmpty none).1.minV = 0 ∧
    (parseMatrix defaultKeySeparator (some 1) (some 1) (some 1) .totals [0, 1]
      treeTopEmpty none).1.maxV = 1 ∧
    ((parseMatrix defaultKeySeparator (some 1) (some 1) (some 1) .totals [0, 1]
      treeTopEmpty none).1.size0 =
      (if (parseMatrix defaultKeySeparator (some 1) (some 1) (some 1) .totals [0, 1]
        treeTopEmpty none).1.members0 = [] then 1
        else (parseMatrix defaultKeySeparator (some 1) (some 1) (some 1) .totals [0, 1]
          treeTopEmpty none).1.members0.length) ∧
      1 ≤ (parseMatrix defaultKeySeparator (some 1) (some 1) (some 1) .totals [0, 1]
        treeTopEmpty none).1.size0) ∧
    ((parseMatrix defaultKeySeparator (some 1) (some 1) (some 1) .totals [0, 1]
      treeTopEmpty none).1.size1 =
      (if (parseMatrix defaultKeySeparator (some 1) (some 1) (some 1) .totals [0, 1]
        treeTopEmpty none).1.members1 = [] then 1
        else (parseMatrix defaultKeySeparator (some 1) (some 1) (some 1) .totals [0, 1]
          treeTopEmpty none).1.members1.length) ∧
      1 ≤ (parseMatrix defaultKeySeparator (some 1) (some 1) (some 1) .totals [0, 1]
        treeTopEmpty none).1.size1) ∧
    ((parseMatrix defaultKeySeparator (some 1) (some 1) (some 1) .totals [0, 1]
      treeTopEmpty none).1.size2 =
      (if (parseMatrix defaultKeySeparator (some 1) (some 1) (some 1) .totals [0, 1]
        treeTopEmpty none).1.members2 = [] then 1
        else (parseMatrix defaultKeySeparator (some 1) (some 1) (some 1) .totals [0, 1]
          treeTopEmpty none).1.members2.length) ∧
      1 ≤ (parseMatrix defaultKeySeparator (some 1) (some 1) (some 1) .totals [0, 1]
        treeTopEmpty none).1.size2) :=
  claim_C10_empty_dataset defaultKeySeparator (some 1) (some 1) (some 1) .totals [0, 1]
    treeTopEmpty none (by decide)
